import Mathlib

/-!
Verification of the hit-streak aggregation and leaderboard scripts.

A shallow embedding of the core logic of the `hit_streaks` repository:
the per-player game-log aggregation (`fetch_hit_streaks` in
`hitstreak_leaderboard.py` / `simple_streaks_links.py`), the left join of
streak statistics onto season totals, the filter pipeline and the two
empty-result states of the page, the cache/demo fallback of
`fetch_mlb_hit_streaks`, and the batting-average sort-key parser
`get_avg_float` of `matchup_leaderboard.py`.

Game outcomes are the booleans computed by the scripts
(`had_hit = 1 if hits > 0 else 0`); the game date is used only to order the
list before aggregation, so the aggregator consumes a `List Bool` already
sorted by date, exactly as the loop in the source does.
-/

namespace HitStreaks

/-- Output record of the per-player aggregation: the four fields appended to
`all_streak_data` in `fetch_hit_streaks` (`Games_With_Hit`,
`Current_Streak`, `Max_Hit_Streak`, `Last_15`/`Last_10`). -/
structure StreakStats where
  gamesWithHit : Nat
  currentStreak : Nat
  maxStreak : Nat
  lastNHits : Nat
  deriving Repr, DecidableEq

/-- The all-zero record used by the join fallback
(`fillna({'Games_With_Hit': 0, 'Current_Streak': 0, 'Max_Hit_Streak': 0,
'Last_15': 0})`, hitstreak_leaderboard.py line 103). -/
def zeroStats : StreakStats := ⟨0, 0, 0, 0⟩

/-- One iteration of the scan in `fetch_hit_streaks`
(hitstreak_leaderboard.py lines 166-172): state is
`(streak, games_with_hit, max_streak)`; on a hit all three are updated with
the incremented `streak`, otherwise `streak` resets to `0`. -/
def streakStep : Nat × Nat × Nat → Bool → Nat × Nat × Nat
  | (streak, gwh, maxS), true => (streak + 1, gwh + 1, max maxS (streak + 1))
  | (_, gwh, maxS), false => (0, gwh, maxS)

/-- The whole scan, started from the zero state initialised at
lines 161-164 of hitstreak_leaderboard.py. -/
def streakScan (games : List Bool) : Nat × Nat × Nat :=
  games.foldl streakStep (0, 0, 0)

/-- Python `games[-n:]` for positive `n`: the final `min n (length games)`
elements.  Truncated subtraction makes `drop (length - n)` the whole list
when `n ≥ length`, which matches the guarded branch
`... if len(games) >= 15 else sum(... for g in games)` at line 178. -/
def lastWindow (n : Nat) (games : List Bool) : List Bool :=
  games.drop (games.length - n)

/-- The per-player aggregation of `fetch_hit_streaks`
(hitstreak_leaderboard.py lines 160-186), with the window size `n` (15 in
hitstreak_leaderboard.py, 10 in simple_streaks_links.py) as a parameter:
`current_streak` is the final value of the running counter, and
`lastNHits` sums `had_hit` over `games[-n:]`. -/
def aggregate (games : List Bool) (n : Nat) : StreakStats :=
  let s := streakScan games
  { gamesWithHit := s.2.1
    currentStreak := s.1
    maxStreak := s.2.2
    lastNHits := (lastWindow n games).count true }

/-- The running counter alone: `streak` is incremented by a hit and reset by
a miss; the first component of the scan. -/
def runEnd (streak : Nat) : List Bool → Nat
  | [] => streak
  | b :: t => runEnd (if b then streak + 1 else 0) t

/-- Helper mirroring the `max_streak` accumulation: the longest run of
consecutive `true`s in the list, where the list is preceded by a run of
`streak` trues still open. -/
def maxRunFrom (streak : Nat) : List Bool → Nat
  | [] => streak
  | true :: t => maxRunFrom (streak + 1) t
  | false :: t => max streak (maxRunFrom 0 t)

theorem foldl_streakStep_count (games : List Bool) :
    ∀ s : Nat × Nat × Nat,
      (games.foldl streakStep s).2.1 = s.2.1 + games.count true := by
  induction games with
  | nil => intro s; simp
  | cons b t ih =>
    intro s
    obtain ⟨streak, gwh, maxS⟩ := s
    cases b
    · simp [streakStep, ih, List.count_cons]
    · simp [streakStep, ih, List.count_cons]
      omega

theorem foldl_streakStep_run (games : List Bool) :
    ∀ streak gwh maxS : Nat,
      (games.foldl streakStep (streak, gwh, maxS)).1 = runEnd streak games := by
  induction games with
  | nil => intro streak gwh maxS; simp [runEnd]
  | cons b t ih =>
    intro streak gwh maxS
    cases b <;> simp [streakStep, runEnd, ih]

theorem le_maxRunFrom (games : List Bool) :
    ∀ streak : Nat, streak ≤ maxRunFrom streak games := by
  induction games with
  | nil => intro streak; simp [maxRunFrom]
  | cons b t ih =>
    intro streak
    cases b
    · exact le_max_left _ _
    · exact le_trans (Nat.le_succ _) (ih (streak + 1))

theorem foldl_streakStep_max (games : List Bool) :
    ∀ streak gwh maxS : Nat, streak ≤ maxS →
      (games.foldl streakStep (streak, gwh, maxS)).2.2
        = max maxS (maxRunFrom streak games) := by
  induction games with
  | nil =>
    intro streak gwh maxS h
    simp [maxRunFrom, Nat.max_eq_left h]
  | cons b t ih =>
    intro streak gwh maxS h
    cases b
    · show (t.foldl streakStep (0, gwh, maxS)).2.2 = _
      rw [ih 0 gwh maxS (Nat.zero_le _)]
      simp only [maxRunFrom]
      rw [← Nat.max_assoc, Nat.max_eq_left h]
    · show (t.foldl streakStep (streak + 1, gwh + 1, max maxS (streak + 1))).2.2 = _
      rw [ih (streak + 1) (gwh + 1) _ (le_max_right _ _)]
      simp only [maxRunFrom]
      rw [Nat.max_assoc, Nat.max_eq_right (le_maxRunFrom t (streak + 1))]

theorem replicate_append_cons_true (streak : Nat) (t : List Bool) :
    List.replicate streak true ++ true :: t = List.replicate (streak + 1) true ++ t := by
  rw [List.replicate_succ' streak true, List.append_assoc]
  rfl

theorem runEnd_suffix (games : List Bool) :
    ∀ streak : Nat,
      List.replicate (runEnd streak games) true <:+ List.replicate streak true ++ games := by
  induction games with
  | nil => intro streak; simp [runEnd]
  | cons b t ih =>
    intro streak
    cases b
    · show List.replicate (runEnd 0 t) true <:+ _
      have h0 := ih 0
      simp only [List.replicate, List.nil_append] at h0
      exact h0.trans ((List.suffix_cons false t).trans
        (List.suffix_append (List.replicate streak true) (false :: t)))
    · show List.replicate (runEnd (streak + 1) t) true <:+ _
      rw [replicate_append_cons_true]
      exact ih (streak + 1)

theorem suffix_replicate_of_suffix_append (k : Nat) (ys : List Bool) :
    ∀ xs : List Bool, List.replicate k true <:+ xs ++ false :: ys →
      List.replicate k true <:+ ys := by
  intro xs
  induction xs with
  | nil =>
    intro h
    simp only [List.nil_append] at h
    rcases List.suffix_cons_iff.mp h with h | h
    · exfalso
      have : false ∈ List.replicate k true := by rw [h]; exact List.mem_cons_self _ _
      simpa using List.eq_of_mem_replicate this
    · exact h
  | cons x xs ih =>
    intro h
    rcases List.suffix_cons_iff.mp h with h | h
    · exfalso
      have : false ∈ List.replicate k true := by rw [h]; simp
      simpa using List.eq_of_mem_replicate this
    · exact ih h

theorem runEnd_maximal (games : List Bool) :
    ∀ streak k : Nat,
      List.replicate k true <:+ List.replicate streak true ++ games →
        k ≤ runEnd streak games := by
  induction games with
  | nil =>
    intro streak k h
    rw [List.append_nil] at h
    have := h.length_le
    simpa [runEnd] using this
  | cons b t ih =>
    intro streak k h
    cases b
    · show k ≤ runEnd 0 t
      have h' := suffix_replicate_of_suffix_append k t (List.replicate streak true) h
      have := ih 0 k (by simpa using h')
      exact this
    · show k ≤ runEnd (streak + 1) t
      rw [replicate_append_cons_true] at h
      exact ih (streak + 1) k h

theorem prefix_replicate_of_prefix_append (k : Nat) (ys : List Bool) :
    ∀ xs : List Bool, List.replicate k true <+: xs ++ false :: ys →
      List.replicate k true <+: xs := by
  induction k with
  | zero => intro xs _; exact List.nil_prefix
  | succ j ih =>
    intro xs h
    rw [List.replicate_succ] at h
    cases xs with
    | nil =>
      exfalso
      rw [List.nil_append] at h
      exact Bool.true_eq_false.mp (List.cons_prefix_cons.mp h).1
    | cons x t =>
      rw [List.cons_append] at h
      obtain ⟨hx, hp⟩ := List.cons_prefix_cons.mp h
      rw [List.replicate_succ]
      exact List.cons_prefix_cons.mpr ⟨hx, ih t hp⟩

theorem infix_replicate_split (k : Nat) (ys : List Bool) :
    ∀ xs : List Bool, List.replicate k true <:+: xs ++ false :: ys →
      List.replicate k true <:+: xs ∨ List.replicate k true <:+: ys := by
  intro xs
  induction xs with
  | nil =>
    intro h
    simp only [List.nil_append] at h
    rcases List.infix_cons_iff.mp h with h | h
    · have := prefix_replicate_of_prefix_append k ys [] (by simpa using h)
      rw [List.prefix_nil.mp this]
      exact Or.inr List.nil_infix
    · exact Or.inr h
  | cons x t ih =>
    intro h
    rw [List.cons_append] at h
    rcases List.infix_cons_iff.mp h with h | h
    · have := prefix_replicate_of_prefix_append k ys (x :: t) (by rw [List.cons_append]; exact h)
      exact Or.inl this.isInfix
    · rcases ih h with h | h
      · exact Or.inl (List.infix_cons h)
      · exact Or.inr h

theorem maxRunFrom_achieved (games : List Bool) :
    ∀ streak : Nat,
      List.replicate (maxRunFrom streak games) true <:+: List.replicate streak true ++ games := by
  induction games with
  | nil => intro streak; simp [maxRunFrom]
  | cons b t ih =>
    intro streak
    cases b
    · show List.replicate (max streak (maxRunFrom 0 t)) true <:+: _
      rcases Nat.le_total streak (maxRunFrom 0 t) with h | h
      · rw [Nat.max_eq_right h]
        have h0 := ih 0
        simp only [List.replicate, List.nil_append] at h0
        exact h0.trans ((List.suffix_cons false t).isInfix.trans
          (List.suffix_append (List.replicate streak true) (false :: t)).isInfix)
      · rw [Nat.max_eq_left h]
        exact (List.prefix_append (List.replicate streak true) (false :: t)).isInfix
    · show List.replicate (maxRunFrom (streak + 1) t) true <:+: _
      rw [replicate_append_cons_true]
      exact ih (streak + 1)

theorem maxRunFrom_maximal (games : List Bool) :
    ∀ streak k : Nat,
      List.replicate k true <:+: List.replicate streak true ++ games →
        k ≤ maxRunFrom streak games := by
  induction games with
  | nil =>
    intro streak k h
    rw [List.append_nil] at h
    have := h.length_le
    simpa [maxRunFrom] using this
  | cons b t ih =>
    intro streak k h
    cases b
    · show k ≤ max streak (maxRunFrom 0 t)
      rcases infix_replicate_split k t (List.replicate streak true) h with h | h
      · have := h.length_le
        simp only [List.length_replicate] at this
        exact le_trans this (le_max_left _ _)
      · have := ih 0 k (by simpa using h)
        exact le_trans this (le_max_right _ _)
    · show k ≤ maxRunFrom (streak + 1) t
      rw [replicate_append_cons_true] at h
      exact ih (streak + 1) k h

theorem aggregate_gamesWithHit (games : List Bool) (n : Nat) :
    (aggregate games n).gamesWithHit = games.count true := by
  simp [aggregate, streakScan, foldl_streakStep_count]

theorem aggregate_currentStreak (games : List Bool) (n : Nat) :
    (aggregate games n).currentStreak = runEnd 0 games := by
  show (games.foldl streakStep (0, 0, 0)).1 = _
  exact foldl_streakStep_run games 0 0 0

theorem aggregate_maxStreak (games : List Bool) (n : Nat) :
    (aggregate games n).maxStreak = maxRunFrom 0 games := by
  show (games.foldl streakStep (0, 0, 0)).2.2 = _
  rw [foldl_streakStep_max games 0 0 0 (le_refl 0)]
  omega

theorem runEnd_zero_suffix (games : List Bool) :
    List.replicate (runEnd 0 games) true <:+ games := by
  have h := runEnd_suffix games 0
  simpa using h

theorem runEnd_zero_maximal (games : List Bool) (k : Nat)
    (h : List.replicate k true <:+ games) : k ≤ runEnd 0 games := by
  apply runEnd_maximal games 0 k
  simpa using h

theorem maxRunFrom_zero_achieved (games : List Bool) :
    List.replicate (maxRunFrom 0 games) true <:+: games := by
  have h := maxRunFrom_achieved games 0
  simpa using h

theorem maxRunFrom_zero_maximal (games : List Bool) (k : Nat)
    (h : List.replicate k true <:+: games) : k ≤ maxRunFrom 0 games := by
  apply maxRunFrom_maximal games 0 k
  simpa using h

theorem lastWindow_count (n : Nat) (games : List Bool) :
    (lastWindow n games).count true
      = (games.reverse.take (min n games.length)).count true := by
  have hmin : games.length - (games.length - n) = min n games.length := by omega
  calc (games.drop (games.length - n)).count true
      = ((games.drop (games.length - n)).reverse).count true :=
        (List.count_reverse _ _).symm
    _ = (games.reverse.take (games.length - (games.length - n))).count true := by
        rw [List.reverse_drop]
    _ = (games.reverse.take (min n games.length)).count true := by rw [hmin]

/-- C1: The aggregation of `fetch_hit_streaks` is correct: over any
ordered boolean game log and positive window size, `gamesWithHit` counts the
`true` outcomes, `maxStreak` is the length of the longest run of
consecutive `true`s anywhere (it occurs as a contiguous block and no longer
all-`true` block occurs), `currentStreak` is the length of the trailing run
of `true`s (it is a suffix and no longer all-`true` suffix exists), and
`lastNHits` counts the `true`s among the final `min n length` elements. -/
theorem aggregate_correct (games : List Bool) (n : Nat) (_hn : 0 < n) :
    (aggregate games n).gamesWithHit = games.count true ∧
    (List.replicate (aggregate games n).maxStreak true <:+: games ∧
      ∀ k : Nat, List.replicate k true <:+: games → k ≤ (aggregate games n).maxStreak) ∧
    (List.replicate (aggregate games n).currentStreak true <:+ games ∧
      ∀ k : Nat, List.replicate k true <:+ games → k ≤ (aggregate games n).currentStreak) ∧
    (aggregate games n).lastNHits
      = (games.reverse.take (min n games.length)).count true := by
  refine ⟨aggregate_gamesWithHit games n, ⟨?_, ?_⟩, ⟨?_, ?_⟩, ?_⟩
  · rw [aggregate_maxStreak]; exact maxRunFrom_zero_achieved games
  · intro k hk; rw [aggregate_maxStreak]; exact maxRunFrom_zero_maximal games k hk
  · rw [aggregate_currentStreak]; exact runEnd_zero_suffix games
  · intro k hk; rw [aggregate_currentStreak]; exact runEnd_zero_maximal games k hk
  · show (lastWindow n games).count true = _
    exact lastWindow_count n games

/-- Witness for `aggregate_correct` on the spec's own test vector
`[true, true, false, true]` with window 10. -/
theorem aggregate_correct_witness :
    0 < 10 ∧
    ((aggregate [true, true, false, true] 10).gamesWithHit
        = [true, true, false, true].count true ∧
      (List.replicate (aggregate [true, true, false, true] 10).maxStreak true
          <:+: [true, true, false, true] ∧
        ∀ k : Nat, List.replicate k true <:+: [true, true, false, true] →
          k ≤ (aggregate [true, true, false, true] 10).maxStreak) ∧
      (List.replicate (aggregate [true, true, false, true] 10).currentStreak true
          <:+ [true, true, false, true] ∧
        ∀ k : Nat, List.replicate k true <:+ [true, true, false, true] →
          k ≤ (aggregate [true, true, false, true] 10).currentStreak) ∧
      (aggregate [true, true, false, true] 10).lastNHits
        = ([true, true, false, true].reverse.take
            (min 10 [true, true, false, true].length)).count true) :=
  ⟨by decide, aggregate_correct [true, true, false, true] 10 (by decide)⟩

/-- C2: Invariants of the aggregation: `currentStreak ≤ maxStreak`,
`gamesWithHit ≤ length`, and `lastNHits ≤ min n length`. -/
theorem aggregate_invariants (games : List Bool) (n : Nat) (_hn : 0 < n) :
    (aggregate games n).currentStreak ≤ (aggregate games n).maxStreak ∧
    (aggregate games n).gamesWithHit ≤ games.length ∧
    (aggregate games n).lastNHits ≤ min n games.length := by
  refine ⟨?_, ?_, ?_⟩
  · rw [aggregate_currentStreak, aggregate_maxStreak]
    exact maxRunFrom_zero_maximal games _ (runEnd_zero_suffix games).isInfix
  · rw [aggregate_gamesWithHit]
    exact List.count_le_length true games
  · show (lastWindow n games).count true ≤ _
    rw [lastWindow_count n games]
    refine le_trans (List.count_le_length true _) ?_
    rw [List.length_take, List.length_reverse]
    omega

/-- Witness for `aggregate_invariants` at window 15 on a concrete log. -/
theorem aggregate_invariants_witness :
    0 < 15 ∧
    ((aggregate [true, false, true, true, true] 15).currentStreak
        ≤ (aggregate [true, false, true, true, true] 15).maxStreak ∧
      (aggregate [true, false, true, true, true] 15).gamesWithHit
        ≤ [true, false, true, true, true].length ∧
      (aggregate [true, false, true, true, true] 15).lastNHits
        ≤ min 15 [true, false, true, true, true].length) :=
  ⟨by decide, aggregate_invariants [true, false, true, true, true] 15 (by decide)⟩

/-- C3: Aggregating the empty game log yields the all-zero
`StreakStats`, the same record the join fallback uses, as an ordinary
(non-error) value of the total function `aggregate`. -/
theorem aggregate_nil (n : Nat) : aggregate [] n = zeroStats := by
  simp [aggregate, streakScan, lastWindow, zeroStats]

/-- C9: The longest streak never exceeds the number of games with a
hit: `maxStreak ≤ gamesWithHit`. -/
theorem maxStreak_le_gamesWithHit (games : List Bool) (n : Nat) :
    (aggregate games n).maxStreak ≤ (aggregate games n).gamesWithHit := by
  rw [aggregate_maxStreak, aggregate_gamesWithHit]
  have h := (maxRunFrom_zero_achieved games).sublist.count_le true
  simpa using h

/-- A season-totals record (one row of the DataFrame built at
hitstreak_leaderboard.py lines 56-78), reduced to the fields the join and
the filters consult: the MLB player id and the display name. -/
structure PlayerTotals where
  playerid : Nat
  name : String
  deriving Repr, DecidableEq

/-- The left join with zero fill of hitstreak_leaderboard.py lines 102-103:
`pd.merge(df, streaks, on='playerid', how='left')` followed by
`fillna({'Games_With_Hit': 0, 'Current_Streak': 0, 'Max_Hit_Streak': 0,
'Last_15': 0})`.  Each season-totals row keeps its place and receives the
streak record whose `playerid` matches (the fetch loop emits at most one
row per id), or `zeroStats` when none matches. -/
def joinStreaks (players : List PlayerTotals) (streaks : List (Nat × StreakStats)) :
    List (PlayerTotals × StreakStats) :=
  players.map fun p =>
    (p, (Option.map Prod.snd (streaks.find? fun s => s.1 == p.playerid)).getD zeroStats)

/-- Model of `fetch_hit_streaks` at the list level (hitstreak_leaderboard.py
lines 127-196): iterate over the player ids; `fetchLog pid = none` models a
request failure (non-200 status or a raised exception, which the
`try/except: continue` at lines 188-190 skips), `some games` the extracted
`had_hit` sequence already sorted by date; a row is appended only for a
non-empty log (`if games:` at line 156), holding `aggregate games n`. -/
def fetch_hit_streaks (fetchLog : Nat → Option (List Bool)) (n : Nat)
    (ids : List Nat) : List (Nat × StreakStats) :=
  ids.filterMap fun pid =>
    (fetchLog pid).bind fun games =>
      if games.isEmpty then none else some (pid, aggregate games n)

theorem joinStreaks_map_fst (players : List PlayerTotals)
    (streaks : List (Nat × StreakStats)) :
    (joinStreaks players streaks).map Prod.fst = players := by
  rw [joinStreaks, List.map_map]
  exact List.map_id players

theorem joinStreaks_zero_of_find_none (players : List PlayerTotals)
    (streaks : List (Nat × StreakStats)) (p : PlayerTotals) (hp : p ∈ players)
    (hf : (streaks.find? fun s => s.1 == p.playerid) = none) :
    (p, zeroStats) ∈ joinStreaks players streaks := by
  rw [joinStreaks]
  have : (p, zeroStats)
      = (p, (Option.map Prod.snd (streaks.find? fun s => s.1 == p.playerid)).getD zeroStats) := by
    rw [hf]
    rfl
  rw [this]
  exact List.mem_map_of_mem _ hp

theorem fetch_hit_streaks_find_none (fetchLog : Nat → Option (List Bool))
    (n : Nat) (ids : List Nat) (pid : Nat) (hfail : fetchLog pid = none) :
    ((fetch_hit_streaks fetchLog n ids).find? fun s => s.1 == pid) = none := by
  rw [List.find?_eq_none]
  intro x hx
  rw [fetch_hit_streaks, List.mem_filterMap] at hx
  obtain ⟨i, _, hi⟩ := hx
  intro hbeq
  have hxpid : x.1 = pid := by simpa using hbeq
  cases hfl : fetchLog i with
  | none => rw [hfl] at hi; exact Option.noConfusion hi
  | some games =>
    rw [hfl, Option.some_bind] at hi
    by_cases hg : games.isEmpty
    · rw [if_pos hg] at hi; exact Option.noConfusion hi
    · rw [if_neg hg] at hi
      have hx1 : x.1 = i := by rw [← Option.some_inj.mp hi]
      rw [hxpid] at hx1
      rw [← hx1, hfail] at hfl
      exact Option.noConfusion hfl

/-- C4: The leaderboard build never drops a season-totals player: the
join returns exactly the season-totals rows in order; a player with no
matching streak row receives the all-zero `StreakStats`; and a player whose
game-log fetch failed (skipped by the `try/except: continue` of
`fetch_hit_streaks`, hence absent from its output) still appears, with
`zeroStats`, whatever happens to the other ids in the batch. -/
theorem leaderboard_never_drops_players (players : List PlayerTotals)
    (streaks : List (Nat × StreakStats)) (fetchLog : Nat → Option (List Bool))
    (n : Nat) (ids : List Nat) (p : PlayerTotals) (hp : p ∈ players) :
    (joinStreaks players streaks).map Prod.fst = players ∧
    ((streaks.find? fun s => s.1 == p.playerid) = none →
      (p, zeroStats) ∈ joinStreaks players streaks) ∧
    (fetchLog p.playerid = none →
      (p, zeroStats) ∈ joinStreaks players (fetch_hit_streaks fetchLog n ids)) := by
  refine ⟨joinStreaks_map_fst players streaks, ?_, ?_⟩
  · intro hf
    exact joinStreaks_zero_of_find_none players streaks p hp hf
  · intro hfail
    exact joinStreaks_zero_of_find_none players _ p hp
      (fetch_hit_streaks_find_none fetchLog n ids p.playerid hfail)

/-- Witness for `leaderboard_never_drops_players`: two season-totals rows,
one streak row, and a fetch that fails on player 7 while succeeding on
player 3. -/
theorem leaderboard_never_drops_players_witness :
    (⟨7, "Cedric Mullins"⟩ : PlayerTotals) ∈
        [(⟨7, "Cedric Mullins"⟩ : PlayerTotals), ⟨3, "Aaron Judge"⟩] ∧
    ((joinStreaks [⟨7, "Cedric Mullins"⟩, ⟨3, "Aaron Judge"⟩]
        [(3, aggregate [true] 15)]).map Prod.fst
      = [(⟨7, "Cedric Mullins"⟩ : PlayerTotals), ⟨3, "Aaron Judge"⟩] ∧
    (([(3, aggregate [true] 15)].find? fun s => s.1 == 7) = none →
      ((⟨7, "Cedric Mullins"⟩ : PlayerTotals), zeroStats) ∈
        joinStreaks [⟨7, "Cedric Mullins"⟩, ⟨3, "Aaron Judge"⟩]
          [(3, aggregate [true] 15)]) ∧
    ((fun pid => if pid = 3 then some [true] else none) 7 = none →
      ((⟨7, "Cedric Mullins"⟩ : PlayerTotals), zeroStats) ∈
        joinStreaks [⟨7, "Cedric Mullins"⟩, ⟨3, "Aaron Judge"⟩]
          (fetch_hit_streaks (fun pid => if pid = 3 then some [true] else none)
            15 [7, 3]))) :=
  ⟨by decide,
    leaderboard_never_drops_players
      [⟨7, "Cedric Mullins"⟩, ⟨3, "Aaron Judge"⟩]
      [(3, aggregate [true] 15)]
      (fun pid => if pid = 3 then some [true] else none) 15 [7, 3]
      ⟨7, "Cedric Mullins"⟩ (by decide)⟩

/-- One displayed leaderboard row, reduced to the fields the sidebar
filters consult: the player name and the `Last_15` ranking value. -/
structure Row where
  name : String
  playerid : Nat
  last15 : Nat
  deriving Repr, DecidableEq

/-- The sidebar query of hitstreak_leaderboard.py: the
`min_games_with_hit` slider, the `player_search` text input (the empty
string is Python-falsy, i.e. unset), and the `watch_players` multiselect
(unset when empty). -/
structure Query where
  minGamesWithHit : Nat
  playerSearch : String
  watchPlayers : List String
  deriving Repr, DecidableEq

/-- Test `search_term in name.lower()` with `search_term = player_search.lower()`
(lines 377-379): case-insensitive containment test. -/
def nameMatches (search : String) (name : String) : Bool :=
  decide (search.toLower.toList <:+: name.toLower.toList)

/-- The filter pipeline of hitstreak_leaderboard.py lines 372-383: keep rows
with `Last_15 >= min_games_with_hit`; then `if player_search:` apply the
case-insensitive name search, `elif watch_players:` keep only watch-listed
names. -/
def applyFilters (q : Query) (rows : List Row) : List Row :=
  let fd := rows.filter fun r => q.minGamesWithHit ≤ r.last15
  if q.playerSearch ≠ "" then
    fd.filter fun r => nameMatches q.playerSearch r.name
  else if q.watchPlayers ≠ [] then
    fd.filter fun r => q.watchPlayers.contains r.name
  else fd

/-- C6: When the name-search box is non-empty, the watch-list filter is
ignored entirely (the output does not depend on `watchPlayers` at all and
equals the search-filtered rows); the watch-list filter applies only when
the search box is empty. -/
theorem search_overrides_watchlist (q : Query) (rows : List Row)
    (hs : q.playerSearch ≠ "") :
    (∀ w₁ w₂ : List String,
      applyFilters ⟨q.minGamesWithHit, q.playerSearch, w₁⟩ rows
        = applyFilters ⟨q.minGamesWithHit, q.playerSearch, w₂⟩ rows) ∧
    applyFilters q rows
      = (rows.filter fun r => q.minGamesWithHit ≤ r.last15).filter
          (fun r => nameMatches q.playerSearch r.name) ∧
    (∀ q' : Query, q'.playerSearch = "" → q'.watchPlayers ≠ [] →
      applyFilters q' rows
        = (rows.filter fun r => q'.minGamesWithHit ≤ r.last15).filter
            (fun r => q'.watchPlayers.contains r.name)) := by
  refine ⟨?_, ?_, ?_⟩
  · intro w₁ w₂
    simp only [applyFilters]
    rw [if_pos hs, if_pos hs]
  · simp only [applyFilters]
    rw [if_pos hs]
  · intro q' he hw
    simp only [applyFilters, he]
    rw [if_neg (by simp), if_pos hw]

/-- Witness for `search_overrides_watchlist` with a search term set and a
non-empty watch list. -/
theorem search_overrides_watchlist_witness :
    ("judge" : String) ≠ "" ∧
    ((∀ w₁ w₂ : List String,
      applyFilters ⟨5, "judge", w₁⟩
          [⟨"Aaron Judge", 1, 12⟩, ⟨"Cedric Mullins", 2, 9⟩]
        = applyFilters ⟨5, "judge", w₂⟩
          [⟨"Aaron Judge", 1, 12⟩, ⟨"Cedric Mullins", 2, 9⟩]) ∧
    applyFilters ⟨5, "judge", ["Cedric Mullins"]⟩
        [⟨"Aaron Judge", 1, 12⟩, ⟨"Cedric Mullins", 2, 9⟩]
      = ([⟨"Aaron Judge", 1, 12⟩, ⟨"Cedric Mullins", 2, 9⟩].filter
          fun r => (5 : Nat) ≤ r.last15).filter
          (fun r => nameMatches ("judge") r.name) ∧
    (∀ q' : Query, q'.playerSearch = "" → q'.watchPlayers ≠ [] →
      applyFilters q' [⟨"Aaron Judge", 1, 12⟩, ⟨"Cedric Mullins", 2, 9⟩]
        = ([⟨"Aaron Judge", 1, 12⟩, ⟨"Cedric Mullins", 2, 9⟩].filter
            fun r => q'.minGamesWithHit ≤ r.last15).filter
            (fun r => q'.watchPlayers.contains r.name))) :=
  ⟨by decide,
    search_overrides_watchlist ⟨5, "judge", ["Cedric Mullins"]⟩
      [⟨"Aaron Judge", 1, 12⟩, ⟨"Cedric Mullins", 2, 9⟩] (by decide)⟩

/-- The three user-facing states of the page body
(hitstreak_leaderboard.py lines 352-458): the populated table, the
`"No players found matching your criteria."` message (line 440), and the
`"No data available..."` error (line 458). -/
inductive RenderState where
  | table (rows : List Row)
  | noMatch
  | noData
  deriving Repr, DecidableEq

/-- The branch structure of the display section:
`if streak_data is not None and not streak_data.empty:` then filter and
`if not filtered_data.empty:` show the table `else` the no-match message,
`else` the no-data error.  `none` models `streak_data is None`; the
descending sort between filtering and display permutes the table rows but
cannot change which branch is taken, so the table state carries the
filtered rows. -/
def render (data : Option (List Row)) (q : Query) : RenderState :=
  match data with
  | none => .noData
  | some rows =>
    if rows.isEmpty then .noData
    else
      let fd := applyFilters q rows
      if fd.isEmpty then .noMatch else .table fd

/-- C7: The two empty conditions are distinct states: a non-empty input
whose filtered result is empty renders the no-match message, and the
no-data error appears exactly for an absent or empty input. -/
theorem empty_states_distinct (data : Option (List Row)) (q : Query)
    (rows : List Row) (hd : data = some rows) (hne : rows ≠ [])
    (hf : applyFilters q rows = []) :
    render data q = RenderState.noMatch ∧
    (∀ (d : Option (List Row)) (q' : Query),
      render d q' = RenderState.noData ↔ d = none ∨ d = some []) := by
  constructor
  · rw [hd, render]
    rw [if_neg (by simpa using hne), hf]
    rfl
  · intro d q'
    cases d with
    | none => simp [render]
    | some rows' =>
      by_cases h' : rows'.isEmpty
      · simp [render, h', List.isEmpty_iff.mp h']
      · constructor
        · intro hcontra
          rw [render] at hcontra
          rw [if_neg h'] at hcontra
          by_cases hfd : (applyFilters q' rows').isEmpty
          · rw [if_pos hfd] at hcontra
            exact RenderState.noConfusion hcontra
          · rw [if_neg hfd] at hcontra
            exact RenderState.noConfusion hcontra
        · intro hcontra
          rcases hcontra with h | h
          · exact Option.noConfusion h
          · rw [Option.some_inj.mp h] at h'
            simp at h'

/-- Witness for `empty_states_distinct`: one row below the slider
threshold, so the filters empty a non-empty input. -/
theorem empty_states_distinct_witness :
    (some [(⟨"Aaron Judge", 1, 3⟩ : Row)] = some [⟨"Aaron Judge", 1, 3⟩] ∧
      [(⟨"Aaron Judge", 1, 3⟩ : Row)] ≠ [] ∧
      applyFilters ⟨5, "", []⟩ [⟨"Aaron Judge", 1, 3⟩] = []) ∧
    (render (some [⟨"Aaron Judge", 1, 3⟩]) ⟨5, "", []⟩ = RenderState.noMatch ∧
      ∀ (d : Option (List Row)) (q' : Query),
        render d q' = RenderState.noData ↔ d = none ∨ d = some []) :=
  ⟨⟨rfl, by decide, by decide⟩,
    empty_states_distinct (some [⟨"Aaron Judge", 1, 3⟩]) ⟨5, "", []⟩
      [⟨"Aaron Judge", 1, 3⟩] rfl (by decide) (by decide)⟩

/-- Outcome of the season-totals request in `fetch_mlb_hit_streaks`:
`ok` is a 200 response carrying the decoded body, `badStatus` the
`response.status_code != 200` branch (line 110), `netError` a raised
exception caught at line 118. -/
inductive ApiResult (α : Type) where
  | ok (payload : α)
  | badStatus (code : Nat)
  | netError
  deriving Repr, DecidableEq

/-- Control flow of `fetch_mlb_hit_streaks` (hitstreak_leaderboard.py
lines 31-124): a fresh cache file short-circuits the request; a 200
response goes through the processing pipeline `process` (lines 53-108,
which also rewrites the cache); any failure falls back to the cache file if
one exists, else to `generate_demo_data()` (modelled by `demo`).  Cache
reads are modelled as succeeding whenever a cache file exists. -/
def fetch_mlb_hit_streaks {α β : Type} (cache : Option β) (cacheFresh : Bool)
    (api : ApiResult α) (process : α → β) (demo : β) : β :=
  match cache, cacheFresh with
  | some f, true => f
  | _, _ =>
    match api with
    | .ok payload => process payload
    | .badStatus _ => cache.getD demo
    | .netError => cache.getD demo

/-- C8: A failed season-totals fetch (non-200 status or raised
exception) never propagates an error: the result is the cached response
when a cache file exists and the demo dataset otherwise. -/
theorem fetch_failure_falls_back {α β : Type} (cache : Option β)
    (cacheFresh : Bool) (api : ApiResult α) (process : α → β) (demo : β)
    (hfail : ∀ payload : α, api ≠ ApiResult.ok payload) :
    fetch_mlb_hit_streaks cache cacheFresh api process demo = cache.getD demo := by
  cases api with
  | ok payload => exact absurd rfl (hfail payload)
  | badStatus code =>
    cases cache with
    | none => rfl
    | some f => cases cacheFresh <;> rfl
  | netError =>
    cases cache with
    | none => rfl
    | some f => cases cacheFresh <;> rfl

/-- Witness for `fetch_failure_falls_back`: a network error with a stale
cache present returns the cached frame. -/
theorem fetch_failure_falls_back_witness :
    (∀ payload : Nat, (ApiResult.netError : ApiResult Nat) ≠ ApiResult.ok payload) ∧
    fetch_mlb_hit_streaks (some 42) false (ApiResult.netError : ApiResult Nat)
      (fun x => x + 1) 0 = (some 42).getD 0 :=
  ⟨fun _ h => ApiResult.noConfusion h,
    fetch_failure_falls_back (some 42) false ApiResult.netError (fun x => x + 1) 0
      (fun _ h => ApiResult.noConfusion h)⟩

/-- Value of a string of decimal digits read left to right, as in Python's
number parsing (`'0'` has code point 48). -/
def digitsVal (l : List Char) : Nat :=
  l.foldl (fun a c => 10 * a + (c.toNat - 48)) 0

/-- Every character is a decimal digit. -/
def allDigits (l : List Char) : Bool :=
  l.all fun c => c.isDigit

/-- Python `float()` on plain decimal literals, modelled exactly over `ℚ`
(so `.452` denotes the rational `452/1000` with no binary rounding):
an optional sign, then digits with at most one decimal point and at least
one digit overall (`"1."` and `".5"` parse, `"."` and `""` do not).
Exponent forms, `inf`/`nan`, digit underscores and surrounding whitespace,
which CPython also accepts, are outside this model.  `none` models the
`ValueError` that `get_avg_float` catches. -/
def pyFloat (cs : List Char) : Option ℚ :=
  let sign : ℚ := if cs.head? = some '-' then -1 else 1
  let body : List Char :=
    if cs.head? = some '-' ∨ cs.head? = some '+' then cs.tail else cs
  match List.splitOn '.' body with
  | [ip] => if ip ≠ [] ∧ allDigits ip then some (sign * digitsVal ip) else none
  | [ip, fp] =>
    if (ip ≠ [] ∨ fp ≠ []) ∧ allDigits ip ∧ allDigits fp then
      some (sign * ((digitsVal ip : ℚ) + (digitsVal fp : ℚ) / (10 : ℚ) ^ fp.length))
    else none
  | _ => none

/-- The body of `get_avg_float` on the character sequence of `avg_str`:
`if avg_str.startswith("."): return float("0" + avg_str)` then
`return float(avg_str)`, with the surrounding `except ValueError:
return 0.0` folding both parse failures to `0`. -/
def get_avg_float_chars (cs : List Char) : ℚ :=
  if cs.head? = some '.' then (pyFloat ('0' :: cs)).getD 0
  else (pyFloat cs).getD 0

/-- Model of `get_avg_float` of matchup_leaderboard.py (lines 762-770, and the
identical inner copy at lines 849-863): the matchup record's `AVG` field is
modelled as `Option String` for `m.get("AVG", "0.000")` (`str()` of the
stored string is the identity; records storing a non-string there are
outside this model).  The Lean function is total: the `ValueError` branch
is the `getD 0` fallback, so no input raises. -/
def get_avg_float (avg : Option String) : ℚ :=
  get_avg_float_chars (avg.getD ("0.000")).toList

/-- C10: `get_avg_float` is total and never raises: `".452"` is parsed
by prefixing a leading `'0'` and denotes `452/1000`; a string that starts
with `'.'` always takes the prefixing branch; any other numeric string is
parsed directly; and every string no branch can parse yields exactly `0`,
as does the absent-field default `"0.000"`. -/
theorem get_avg_float_total :
    get_avg_float (some ".452") = 452 / 1000 ∧
    (∀ t : String, t.toList.head? = some '.' →
      get_avg_float (some t) = (pyFloat ('0' :: t.toList)).getD 0) ∧
    (∀ (t : String) (q : ℚ), t.toList.head? ≠ some '.' → pyFloat t.toList = some q →
      get_avg_float (some t) = q) ∧
    (∀ t : String, pyFloat t.toList = none → pyFloat ('0' :: t.toList) = none →
      get_avg_float (some t) = 0) ∧
    get_avg_float none = 0 := by
  refine ⟨?_, ?_, ?_, ?_, ?_⟩
  · show get_avg_float_chars (".452".toList) = 452 / 1000
    rw [show (".452".toList) = ['.', '4', '5', '2'] from rfl]
    have hpy : pyFloat ['0', '.', '4', '5', '2'] = some (452 / 1000) := by
      have hs : List.splitOn '.' ['0', '.', '4', '5', '2'] = [['0'], ['4', '5', '2']] := by
        decide
      have h4 : digitsVal ['4', '5', '2'] = 452 := by decide
      have h0 : digitsVal ['0'] = 0 := by decide
      simp [pyFloat, hs, h4, h0, allDigits]
      norm_num
    rw [get_avg_float_chars,
      if_pos (show (['.', '4', '5', '2'] : List Char).head? = some '.' from rfl), hpy]
    rfl
  · intro t hdot
    show get_avg_float_chars t.toList = _
    rw [get_avg_float_chars, if_pos hdot]
  · intro t q hdot hq
    show get_avg_float_chars t.toList = q
    rw [get_avg_float_chars, if_neg hdot, hq]
    rfl
  · intro t h1 h2
    show get_avg_float_chars t.toList = 0
    rw [get_avg_float_chars]
    by_cases hdot : t.toList.head? = some '.'
    · rw [if_pos hdot, h2]; rfl
    · rw [if_neg hdot, h1]; rfl
  · show get_avg_float_chars ("0.000".toList) = 0
    rw [show ("0.000".toList) = ['0', '.', '0', '0', '0'] from rfl]
    have hpy : pyFloat ['0', '.', '0', '0', '0'] = some 0 := by
      have hs : List.splitOn '.' ['0', '.', '0', '0', '0'] = [['0'], ['0', '0', '0']] := by
        decide
      have h0 : digitsVal ['0'] = 0 := by decide
      have h000 : digitsVal ['0', '0', '0'] = 0 := by decide
      simp [pyFloat, hs, h0, h000, allDigits]
    rw [get_avg_float_chars, if_neg (by decide), hpy]
    rfl

end HitStreaks
